import Mathlib

/-!
Shallow embedding of the zkMIPS zkVM core (src/src/vm.rs, src/src/circuit.rs,
src/src/proof.rs) and proofs about the specification claims.

Modelling conventions:
* machine integers are `Nat`/`Int` with explicit wrap-around where the Rust
  code can wrap (`i64` arithmetic wraps via `wrap64`, `as usize` / `as u64`
  casts via `u64Cast`);
* the interpreter stack (`Vec<Value>` with `push`/`pop` at the end) is a
  `List Value` with the top of the stack at the head;
* `HashMap` fields are association lists with insert-overwrite semantics;
* the external Blake2b512 byte hash is a parameter `hash : List Nat → List Nat`
  (64-byte output, truncated with `take 32` exactly where the source truncates);
* Rust out-of-bounds indexing/slicing (a panic, not a `VMError`) is the
  distinguished outcome `panic`;
* the fallible loop returns `Outcome`: `ok`/`err` carry the `ExecutionContext`
  as mutated so far, mirroring the in-place mutation of `self.context`.
-/

namespace ZkVM

/-- Wrap-around `i64` arithmetic result (release-mode Rust `+`/`*` on `i64`). -/
def wrap64 (x : Int) : Int := (x + 2 ^ 63) % 2 ^ 64 - 2 ^ 63

/-- The Rust `as usize` / `as u64` cast of an `i64` (two's complement bits). -/
def u64Cast (x : Int) : Nat := (x % (2 ^ 64 : Int)).toNat

/-- The Rust `as i64` cast of a `u64`. -/
def i64OfU64 (n : Nat) : Int := if n < 2 ^ 63 then (n : Int) else (n : Int) - 2 ^ 64

/-- `Value` from src/src/vm.rs lines 30-44; `contract` inlines `ContractData`. -/
inductive Value where
  | int (i : Int)
  | bool (b : Bool)
  | bytes (bs : List Nat)
  | address (a : List Nat)
  | contract (code : List Nat) (storage : List (List Nat × Value)) (balance : Nat)

/-- `VMError` from src/src/vm.rs lines 8-28. -/
inductive VMError where
  | StackUnderflow
  | StackOverflow
  | InvalidOpcode (op : Nat)
  | MemoryError (msg : String)
  | ExecutionError (msg : String)
  | GasLimitExceeded
  | InvalidJumpDestination
  | ContractCreationError (msg : String)
  | InvalidStateTransition (msg : String)
deriving DecidableEq

/-- `CallFrame` from src/src/vm.rs lines 94-102. -/
structure CallFrame where
  caller : List Nat
  address : List Nat
  value : Nat
  gas_limit : Nat
  code : List Nat
  return_data : List Nat

/-- `Log` from src/src/vm.rs lines 104-109. -/
structure Log where
  address : List Nat
  topics : List (List Nat)
  data : List Nat

/-- The `op_cost` table built in `GasConfig::default` (src/src/vm.rs lines 54-72). -/
def opCostDefault (op : Nat) : Option Nat :=
  if op = 0x01 then some 3        -- PUSH
  else if op = 0x02 then some 5   -- ADD
  else if op = 0x03 then some 5   -- MUL
  else if op = 0x04 then some 20  -- STORE
  else if op = 0x05 then some 20  -- LOAD
  else if op = 0x06 then some 8   -- JUMP
  else if op = 0x07 then some 10  -- JUMPI
  else if op = 0x08 then some 3   -- EQ
  else if op = 0x09 then some 3   -- LT
  else if op = 0x0A then some 3   -- GT
  else if op = 0x0B then some 400 -- CREATE
  else if op = 0x0C then some 40  -- CALL
  else if op = 0x0D then some 5   -- RETURN
  else if op = 0x0E then some 50  -- SHA3
  else if op = 0x0F then some 20  -- BALANCE
  else none

/-- `GasConfig` from src/src/vm.rs lines 46-52 (`op_cost` as a lookup function). -/
structure GasConfig where
  base : Nat
  op_cost : Nat → Option Nat
  memory_expansion : Nat
  contract_creation : Nat

/-- `GasConfig::default` (src/src/vm.rs lines 54-80). -/
def GasConfig.default : GasConfig :=
  { base := 2
    op_cost := opCostDefault
    memory_expansion := 3
    contract_creation := 32000 }

/-- `ExecutionContext` from src/src/vm.rs lines 82-92 (the `state_root` field is
kept outside the loop model; see `computeStateRoot`). -/
structure ExecutionContext where
  stack : List Value
  memory : List (Nat × Value)
  storage : List (List Nat × Value)
  program_counter : Nat
  gas_remaining : Nat
  gas_config : GasConfig
  call_stack : List CallFrame
  logs : List Log

/-- `ExecutionContext::new` (src/src/vm.rs lines 112-124). -/
def ExecutionContext.new (gasLimit : Nat) : ExecutionContext :=
  { stack := []
    memory := []
    storage := []
    program_counter := 0
    gas_remaining := gasLimit
    gas_config := GasConfig.default
    call_stack := []
    logs := [] }

/-- `HashMap::insert` on an association list (overwrite on key collision). -/
def memInsert (k : Nat) (v : Value) : List (Nat × Value) → List (Nat × Value)
  | [] => [(k, v)]
  | (k2, v2) :: rest => if k = k2 then (k, v) :: rest else (k2, v2) :: memInsert k v rest

/-- `HashMap::get` on an association list. -/
def memGet (k : Nat) : List (Nat × Value) → Option Value
  | [] => none
  | (k2, v2) :: rest => if k = k2 then some v2 else memGet k rest

/-- Result of one iteration of the `execute` loop body. -/
inductive StepResult where
  | next (ctx : ExecutionContext)
  | halt (ctx : ExecutionContext)
  | err (e : VMError) (ctx : ExecutionContext)
  | panic

/-- Result of a whole `execute` call. `outOfFuel` is an artifact of the fuelled
loop model and is never returned when the fuel exceeds the program length. -/
inductive Outcome where
  | ok (ctx : ExecutionContext)
  | err (e : VMError) (ctx : ExecutionContext)
  | panic
  | outOfFuel

/-- The gas cost looked up for an opcode (src/src/vm.rs lines 189-191):
the `op_cost` table entry, or the `base` cost when absent. -/
def gasCostOf (op : Nat) (ctx : ExecutionContext) : Nat :=
  (ctx.gas_config.op_cost op).getD ctx.gas_config.base

/-- The opcode dispatch of `VM::execute` (src/src/vm.rs lines 194-364), run on
the context `c0` that already has the opcode's gas debited.  Each arm mirrors
the source's pops, checks, mutations and `program_counter` update in source
order.  `Vec::pop` is the head/tail split of the stack list: it removes the
top value whatever its variant, so a failed variant match still leaves the
value popped. -/
def stepOp (hash : List Nat → List Nat) (prog : List Nat) (op : Nat)
    (c0 : ExecutionContext) : StepResult :=
  if op = 0x01 then -- PUSH (lines 196-203): operand read happens before the overflow check
    match prog.get? (c0.program_counter + 1) with
    | none => .panic
    | some v =>
      if 1024 ≤ c0.stack.length then .err .StackOverflow c0
      else .next { c0 with stack := .int (v : Int) :: c0.stack,
                           program_counter := c0.program_counter + 2 }
  else if op = 0x02 then -- ADD (lines 204-215): pops b, then a, both must be Int
    match c0.stack with
    | [] => .err .StackUnderflow c0
    | .int b :: r1 =>
      match r1 with
      | [] => .err .StackUnderflow { c0 with stack := r1 }
      | .int a :: r2 =>
        .next { c0 with stack := .int (wrap64 (a + b)) :: r2,
                        program_counter := c0.program_counter + 1 }
      | _ :: r2 => .err .StackUnderflow { c0 with stack := r2 }
    | _ :: r1 => .err .StackUnderflow { c0 with stack := r1 }
  else if op = 0x03 then -- MUL (lines 216-227)
    match c0.stack with
    | [] => .err .StackUnderflow c0
    | .int b :: r1 =>
      match r1 with
      | [] => .err .StackUnderflow { c0 with stack := r1 }
      | .int a :: r2 =>
        .next { c0 with stack := .int (wrap64 (a * b)) :: r2,
                        program_counter := c0.program_counter + 1 }
      | _ :: r2 => .err .StackUnderflow { c0 with stack := r2 }
    | _ :: r1 => .err .StackUnderflow { c0 with stack := r1 }
  else if op = 0x04 then -- STORE (lines 228-237): pops addr (Int), then value (any variant)
    match c0.stack with
    | [] => .err .StackUnderflow c0
    | .int a :: r1 =>
      match r1 with
      | [] => .err .StackUnderflow { c0 with stack := r1 }
      | v :: r2 =>
        .next { c0 with stack := r2, memory := memInsert (u64Cast a) v c0.memory,
                        program_counter := c0.program_counter + 1 }
    | _ :: r1 => .err .StackUnderflow { c0 with stack := r1 }
  else if op = 0x05 then -- LOAD (lines 238-248)
    match c0.stack with
    | [] => .err .StackUnderflow c0
    | .int a :: r1 =>
      match memGet (u64Cast a) c0.memory with
      | none => .err (.MemoryError ("Address not found: " ++ toString (u64Cast a)))
          { c0 with stack := r1 }
      | some v => .next { c0 with stack := v :: r1,
                                  program_counter := c0.program_counter + 1 }
    | _ :: r1 => .err .StackUnderflow { c0 with stack := r1 }
  else if op = 0x0B then -- CREATE (lines 250-281): pops value, then code_size
    match c0.stack with
    | [] => .err .StackUnderflow c0
    | .int v :: r1 =>
      match r1 with
      | [] => .err .StackUnderflow { c0 with stack := r1 }
      | .int sz :: r2 =>
        if c0.gas_remaining < c0.gas_config.contract_creation then
          .err .GasLimitExceeded { c0 with stack := r2 }
        else if prog.length < c0.program_counter + 1 + u64Cast sz then .panic
        else
          .next { c0 with
                  stack := .contract ((prog.drop (c0.program_counter + 1)).take (u64Cast sz))
                      [] (u64Cast v) ::
                    .address ((hash ((prog.drop (c0.program_counter + 1)).take
                      (u64Cast sz))).take 32) :: r2,
                  gas_remaining := c0.gas_remaining - c0.gas_config.contract_creation,
                  program_counter := c0.program_counter + 1 + u64Cast sz }
      | _ :: r2 => .err .StackUnderflow { c0 with stack := r2 }
    | _ :: r1 => .err .StackUnderflow { c0 with stack := r1 }
  else if op = 0x0C then -- CALL (lines 282-313): pops address, value, gas_limit
    match c0.stack with
    | [] => .err .StackUnderflow c0
    | .address addr :: r1 =>
      match r1 with
      | [] => .err .StackUnderflow { c0 with stack := r1 }
      | .int v :: r2 =>
        match r2 with
        | [] => .err .StackUnderflow { c0 with stack := r2 }
        | .int g :: r3 =>
          match memGet (addr.headD 0) c0.memory with
          | some (.contract code _ _) =>
            .next { c0 with
                    stack := r3
                    call_stack := c0.call_stack ++
                      [{ caller := List.replicate 32 0
                         address := addr
                         value := u64Cast v
                         gas_limit := u64Cast g
                         code := code
                         return_data := [] }]
                    program_counter := c0.program_counter + 1 }
          | _ => .err (.ExecutionError "Contract not found") { c0 with stack := r3 }
        | _ :: r3 => .err .StackUnderflow { c0 with stack := r3 }
      | _ :: r2 => .err .StackUnderflow { c0 with stack := r2 }
    | _ :: r1 => .err .StackUnderflow { c0 with stack := r1 }
  else if op = 0x0D then -- RETURN (lines 314-329): pops size, then offset
    match c0.stack with
    | [] => .err .StackUnderflow c0
    | .int sz :: r1 =>
      match r1 with
      | [] => .err .StackUnderflow { c0 with stack := r1 }
      | .int off :: r2 =>
        match c0.call_stack.getLast? with
        | none => .next { c0 with stack := r2, program_counter := c0.program_counter + 1 }
        | some fr =>
          if prog.length < u64Cast off + u64Cast sz then .panic
          else
            .next { c0 with
                    stack := r2
                    call_stack := c0.call_stack.dropLast ++
                      [{ fr with return_data := (prog.drop (u64Cast off)).take (u64Cast sz) }]
                    program_counter := c0.program_counter + 1 }
      | _ :: r2 => .err .StackUnderflow { c0 with stack := r2 }
    | _ :: r1 => .err .StackUnderflow { c0 with stack := r1 }
  else if op = 0x0E then -- SHA3 (lines 330-347): pops size, then offset; hashes program bytes
    match c0.stack with
    | [] => .err .StackUnderflow c0
    | .int sz :: r1 =>
      match r1 with
      | [] => .err .StackUnderflow { c0 with stack := r1 }
      | .int off :: r2 =>
        if prog.length < u64Cast off + u64Cast sz then .panic
        else
          .next { c0 with
                  stack := .bytes ((hash ((prog.drop (u64Cast off)).take
                    (u64Cast sz))).take 32) :: r2,
                  program_counter := c0.program_counter + 1 }
      | _ :: r2 => .err .StackUnderflow { c0 with stack := r2 }
    | _ :: r1 => .err .StackUnderflow { c0 with stack := r1 }
  else if op = 0x0F then -- BALANCE (lines 348-361)
    match c0.stack with
    | [] => .err .StackUnderflow c0
    | .address addr :: r1 =>
      match memGet (addr.headD 0) c0.memory with
      | some (.contract _ _ bal) =>
        .next { c0 with stack := .int (i64OfU64 bal) :: r1,
                        program_counter := c0.program_counter + 1 }
      | _ => .err (.ExecutionError "Contract not found") { c0 with stack := r1 }
    | _ :: r1 => .err .StackUnderflow { c0 with stack := r1 }
  else if op = 0xFF then -- STOP (line 362): gas for the opcode was already debited
    .halt c0
  else -- line 363
    .err (.InvalidOpcode op) c0

/-- One iteration of the `while` loop body of `VM::execute`
(src/src/vm.rs lines 185-365), for `op = program[pc]`: gas is debited first
(lines 189-192, `use_gas` fails without mutation on insufficient gas), then
the opcode dispatch runs on the debited context. -/
def step (hash : List Nat → List Nat) (prog : List Nat) (op : Nat)
    (ctx : ExecutionContext) : StepResult :=
  if ctx.gas_remaining < gasCostOf op ctx then .err .GasLimitExceeded ctx
  else stepOp hash prog op
    { ctx with gas_remaining := ctx.gas_remaining - gasCostOf op ctx }

/-- The `while context.program_counter < self.program.len()` loop of
`VM::execute` (src/src/vm.rs lines 185-365), with explicit fuel. -/
def execLoop (hash : List Nat → List Nat) (prog : List Nat) :
    Nat → ExecutionContext → Outcome
  | 0, _ => .outOfFuel
  | fuel + 1, ctx =>
    match prog.get? ctx.program_counter with
    | none => .ok ctx
    | some op =>
      match step hash prog op ctx with
      | .next c => execLoop hash prog fuel c
      | .halt c => .ok c
      | .err e c => .err e c
      | .panic => .panic

/-- `VM::execute` on the context built by `VM::new` (gas limit 1,000,000;
src/src/vm.rs lines 174-182).  Every opcode advances `program_counter` by at
least one, so `prog.length + 1` units of fuel always suffice. -/
def execute (hash : List Nat → List Nat) (prog : List Nat) : Outcome :=
  execLoop hash prog (prog.length + 1) (ExecutionContext.new 1000000)

/-- A stand-in instantiation for the external Blake2b512 hash (64-byte output).
Used only to instantiate theorems whose statements do not depend on the hash. -/
def zeroHash (_bs : List Nat) : List Nat := List.replicate 64 0

/-- The error carried by an outcome, if any. -/
def Outcome.error : Outcome → Option VMError
  | .err e _ => some e
  | _ => none

/-- The remaining gas of the final context, if execution produced one. -/
def Outcome.gasLeft : Outcome → Option Nat
  | .ok c => some c.gas_remaining
  | .err _ c => some c.gas_remaining
  | _ => none

/-- The final stack, if execution produced a final context. -/
def Outcome.finalStack : Outcome → Option (List Value)
  | .ok c => some c.stack
  | .err _ c => some c.stack
  | _ => none

/-- Is a value the `Int` variant? -/
def Value.isInt : Value → Bool
  | .int _ => true
  | _ => false

/-- Is a value the `Address` variant? -/
def Value.isAddress : Value → Bool
  | .address _ => true
  | _ => false

/-- Does a step result carry an `InvalidOpcode` error? -/
def StepResult.isInvalidOpcode : StepResult → Bool
  | .err (.InvalidOpcode _) _ => true
  | _ => false

/-- The opcode bytes that have a dispatch arm in `VM::execute`
(src/src/vm.rs lines 194-364).  Note that 0x06-0x0A (JUMP, JUMPI, EQ, LT, GT)
have entries in `GasConfig::default`'s cost table but no dispatch arm. -/
def handledOps : List Nat :=
  [0x01, 0x02, 0x03, 0x04, 0x05, 0x0B, 0x0C, 0x0D, 0x0E, 0x0F, 0xFF]

/-- Spec scenario A program: `01 05 01 03 02 FF`. -/
def progA : List Nat := [0x01, 0x05, 0x01, 0x03, 0x02, 0xFF]

/-- Spec scenario C program: `01 2A 04 00 01 37 04 01 05 00 05 01 02 FF`. -/
def progC : List Nat :=
  [0x01, 0x2A, 0x04, 0x00, 0x01, 0x37, 0x04, 0x01, 0x05, 0x00, 0x05, 0x01, 0x02, 0xFF]

/-- Spec scenario D program: `02 FF`. -/
def progD : List Nat := [0x02, 0xFF]

/-- Spec scenario F program: 1025 repetitions of `01 00` followed by `FF`. -/
def overflowProg : List Nat := (List.replicate 1025 [0x01, 0x00]).flatten ++ [0xFF]

/-- A program exercising an in-gas-table but unimplemented opcode:
PUSH 1, PUSH 2, EQ (0x08), STOP. -/
def progEq : List Nat := [0x01, 0x01, 0x01, 0x02, 0x08, 0xFF]

/-- A program whose last byte is PUSH (0x01): the interpreter reads
`program[pc + 1]` past the end. -/
def progPushEnd : List Nat := [0x01]

/-- A program ending in CREATE with `code_size = 2` inline bytes missing:
PUSH 2 (code size), PUSH 0 (balance), CREATE. -/
def progCreateEnd : List Nat := [0x01, 0x02, 0x01, 0x00, 0x0B]

/-- The interpreter state reached after `k` iterations of `overflowProg`
(each a `PUSH 0`): `k` zeros on the stack, `pc = 2k`, `3k` gas consumed. -/
def pushCtx (k : Nat) : ExecutionContext :=
  { stack := List.replicate k (Value.int ((0 : Nat) : Int))
    memory := []
    storage := []
    program_counter := 2 * k
    gas_remaining := 1000000 - 3 * k
    gas_config := GasConfig.default
    call_stack := []
    logs := [] }

/-! ### State root (src/src/vm.rs `ExecutionContext::compute_state_root`) -/

/-- Lexicographic byte-array order used by `par_sort_by_key(|&(k, _)| k)` on
`[u8; 32]` keys. -/
def keyLe : List Nat → List Nat → Bool
  | [], _ => true
  | _ :: _, [] => false
  | a :: as, b :: bs => if a < b then true else if b < a then false else keyLe as bs

/-- Sort-by-key comparison on storage pairs (src/src/vm.rs line 139). -/
def pairLe (x y : List Nat × Value) : Bool := keyLe x.1 y.1

/-- `u64::to_le_bytes` (8 little-endian bytes). -/
def u64LeBytes (n : Nat) : List Nat := (List.range 8).map fun k => n / 256 ^ k % 256

/-- `i64::to_le_bytes` (two's complement, 8 little-endian bytes). -/
def i64LeBytes (i : Int) : List Nat := u64LeBytes (u64Cast i)

/-- The bytes fed to the hasher for one storage value
(src/src/vm.rs lines 143-152). -/
def encodeValue : Value → List Nat
  | .int i => i64LeBytes i
  | .bool b => [if b then 1 else 0]
  | .bytes bs => bs
  | .address a => a
  | .contract code _ balance => code ++ u64LeBytes balance

/-- The bytes fed to the hasher for one log (src/src/vm.rs lines 156-162). -/
def encodeLog (l : Log) : List Nat := l.address ++ l.topics.flatten ++ l.data

/-- The full byte stream hashed by `compute_state_root`
(src/src/vm.rs lines 134-163): storage pairs sorted by key, then logs in
order. -/
def stateRootInput (storage : List (List Nat × Value)) (logs : List Log) : List Nat :=
  ((storage.mergeSort pairLe).map fun kv => kv.1 ++ encodeValue kv.2).flatten
    ++ (logs.map encodeLog).flatten

/-- `compute_state_root` (src/src/vm.rs lines 134-166): the Blake2b512 digest
of `stateRootInput`, truncated to 32 bytes; the hash is a parameter. -/
def computeStateRoot (hash : List Nat → List Nat)
    (storage : List (List Nat × Value)) (logs : List Log) : List Nat :=
  (hash (stateRootInput storage logs)).take 32

/-! ### Circuit (src/src/circuit.rs) -/

/-- bellman `cs.enforce(ann, A, B, C)` emits the R1CS row `A · B = C`;
with single-variable linear combinations this is `a * b = c`. -/
def r1csEnforce {F : Type} [CommRing F] (a b c : F) : Prop := a * b = c

/-- The constraint emitted for the ADD branch of `VMCircuit::synthesize`
(src/src/circuit.rs lines 208-214):
`cs.enforce(.., |lc| lc + a, |lc| lc + b, |lc| lc + result)`. -/
def addStepConstraint {F : Type} [CommRing F] (a b r : F) : Prop := r1csEnforce a b r

/-- The witness assigned to the `add_result` variable
(src/src/circuit.rs lines 195-206): the sum of the two stack values. -/
def addResultWitness {F : Type} [CommRing F] (a b : F) : F := a + b

/-! ### Proof system (src/src/proof.rs), with the external Groth16
`verify_proof`, the Blake2s binding hash and the LRU cache contents
abstracted as parameters. -/

/-- `ProofData` (src/src/proof.rs lines 118-123). -/
structure ProofData (P I : Type) where
  proof : P
  public_inputs : List I
  hash : List Nat

/-- The fall-through path of `ProofSystem::verify`
(src/src/proof.rs lines 62-70): SNARK verification AND the binding-hash
recomputation check. -/
def verifyFull {P I : Type} (snark : P → List I → Bool)
    (hashProof : P → List I → List Nat) (pd : ProofData P I) : Bool :=
  snark pd.proof pd.public_inputs && decide (hashProof pd.proof pd.public_inputs = pd.hash)

/-- `ProofSystem::verify` (src/src/proof.rs lines 54-71): a cache hit with an
equal proof returns `true` immediately; otherwise the full check runs. -/
def verify {P I : Type} [DecidableEq P] (cache : List Nat → Option P)
    (snark : P → List I → Bool) (hashProof : P → List I → List Nat)
    (pd : ProofData P I) : Bool :=
  match cache pd.hash with
  | some cached => if cached = pd.proof then true else verifyFull snark hashProof pd
  | none => verifyFull snark hashProof pd

/-- The per-proof closure of `ProofSystem::batch_verify`
(src/src/proof.rs lines 77-88): on a cache hit it returns the proof
comparison; on a miss it runs SNARK verification only — the binding-hash
check of `verify` is absent. -/
def batchOne {P I : Type} [DecidableEq P] (cache : List Nat → Option P)
    (snark : P → List I → Bool) (pd : ProofData P I) : Bool :=
  match cache pd.hash with
  | some cached => decide (cached = pd.proof)
  | none => snark pd.proof pd.public_inputs

/-- `ProofSystem::batch_verify` (src/src/proof.rs lines 73-91): the AND of the
per-proof results. -/
def batchVerify {P I : Type} [DecidableEq P] (cache : List Nat → Option P)
    (snark : P → List I → Bool) (pds : List (ProofData P I)) : Bool :=
  (pds.map (batchOne cache snark)).all id

/-- Concrete instantiation for counterexamples: no cache entries. -/
def cexCache : List Nat → Option Nat := fun _ => none

/-- Concrete instantiation for counterexamples: the SNARK check accepts. -/
def cexSnark : Nat → List Nat → Bool := fun _ _ => true

/-- Concrete instantiation for counterexamples: a fixed binding digest. -/
def cexHash : Nat → List Nat → List Nat := fun _ _ => [0]

/-- A proof-data record whose stored `hash` field differs from the recomputed
binding digest `cexHash 0 [] = [0]`. -/
def cexPd : ProofData Nat Nat := { proof := 0, public_inputs := [], hash := [1] }

/-! ## Helper lemmas -/

/-- PUSH with room on the stack: pushes the operand byte and advances `pc` by 2. -/
theorem stepOp_push (hash : List Nat → List Nat) (prog : List Nat)
    (c0 : ExecutionContext) (v : Nat)
    (hv : prog.get? (c0.program_counter + 1) = some v)
    (hlen : c0.stack.length < 1024) :
    stepOp hash prog 0x01 c0 =
      .next { c0 with stack := .int (v : Int) :: c0.stack,
                      program_counter := c0.program_counter + 2 } := by
  unfold stepOp
  norm_num
  rw [List.get?_eq_getElem?] at hv
  rw [hv]
  dsimp only
  rw [if_neg (by omega)]

/-- PUSH onto a full stack: `StackOverflow`, with the opcode's gas already
debited (the context is returned unchanged past the gas debit). -/
theorem stepOp_push_full (hash : List Nat → List Nat) (prog : List Nat)
    (c0 : ExecutionContext) (v : Nat)
    (hv : prog.get? (c0.program_counter + 1) = some v)
    (hlen : 1024 ≤ c0.stack.length) :
    stepOp hash prog 0x01 c0 = .err .StackOverflow c0 := by
  unfold stepOp
  norm_num
  rw [List.get?_eq_getElem?] at hv
  rw [hv]
  dsimp only
  rw [if_pos hlen]

set_option maxHeartbeats 4000000 in
/-- Every dispatch arm either keeps the stack within the 1024 bound or shrinks
it: case analysis over all opcodes and all stack shapes. -/
theorem stepOp_stack_le (hash : List Nat → List Nat) (prog : List Nat) (op : Nat)
    (c0 c : ExecutionContext)
    (h : stepOp hash prog op c0 = .next c ∨ stepOp hash prog op c0 = .halt c)
    (hlen : c0.stack.length ≤ 1024) : c.stack.length ≤ 1024 := by
  have hop : (op ≠ 1 ∧ op ≠ 2 ∧ op ≠ 3 ∧ op ≠ 4 ∧ op ≠ 5 ∧ op ≠ 11 ∧ op ≠ 12 ∧
       op ≠ 13 ∧ op ≠ 14 ∧ op ≠ 15 ∧ op ≠ 255) ∨
      op = 1 ∨ op = 2 ∨ op = 3 ∨ op = 4 ∨ op = 5 ∨ op = 11 ∨ op = 12 ∨
      op = 13 ∨ op = 14 ∨ op = 15 ∨ op = 255 := by omega
  rcases hop with ⟨e1, e2, e3, e4, e5, e6, e7, e8, e9, e10, e11⟩ |
    rfl | rfl | rfl | rfl | rfl | rfl | rfl | rfl | rfl | rfl | rfl
  · rcases h with h | h <;>
      (unfold stepOp at h
       rw [if_neg e1, if_neg e2, if_neg e3, if_neg e4, if_neg e5, if_neg e6, if_neg e7,
           if_neg e8, if_neg e9, if_neg e10, if_neg e11] at h
       cases h)
  all_goals
    (rcases h with h | h <;>
      (unfold stepOp at h
       norm_num at h
       repeat' split at h
       all_goals cases h
       all_goals simp_all only [List.length_cons, not_le, not_lt]
       all_goals omega))

/-- Gas-debit then dispatch preserves the stack bound. -/
theorem step_stack_le (hash : List Nat → List Nat) (prog : List Nat) (op : Nat)
    (ctx c : ExecutionContext)
    (h : step hash prog op ctx = .next c ∨ step hash prog op ctx = .halt c)
    (hlen : ctx.stack.length ≤ 1024) : c.stack.length ≤ 1024 := by
  unfold step at h
  by_cases hgas : ctx.gas_remaining < gasCostOf op ctx
  · rw [if_pos hgas] at h
    rcases h with h | h <;> cases h
  · rw [if_neg hgas] at h
    exact stepOp_stack_le hash prog op _ c h (by simpa using hlen)

set_option maxHeartbeats 4000000 in
/-- Every `StackUnderflow` error context produced by the dispatch keeps the gas
of the context it was given (the debit happened before the dispatch). -/
theorem stepOp_underflow_gas (hash : List Nat → List Nat) (prog : List Nat) (op : Nat)
    (c0 c : ExecutionContext)
    (h : stepOp hash prog op c0 = .err .StackUnderflow c) :
    c.gas_remaining = c0.gas_remaining := by
  have hop : (op ≠ 1 ∧ op ≠ 2 ∧ op ≠ 3 ∧ op ≠ 4 ∧ op ≠ 5 ∧ op ≠ 11 ∧ op ≠ 12 ∧
       op ≠ 13 ∧ op ≠ 14 ∧ op ≠ 15 ∧ op ≠ 255) ∨
      op = 1 ∨ op = 2 ∨ op = 3 ∨ op = 4 ∨ op = 5 ∨ op = 11 ∨ op = 12 ∨
      op = 13 ∨ op = 14 ∨ op = 15 ∨ op = 255 := by omega
  rcases hop with ⟨e1, e2, e3, e4, e5, e6, e7, e8, e9, e10, e11⟩ |
    rfl | rfl | rfl | rfl | rfl | rfl | rfl | rfl | rfl | rfl | rfl
  · unfold stepOp at h
    rw [if_neg e1, if_neg e2, if_neg e3, if_neg e4, if_neg e5, if_neg e6, if_neg e7,
        if_neg e8, if_neg e9, if_neg e10, if_neg e11] at h
    cases h
  all_goals
    (unfold stepOp at h
     norm_num at h
     repeat' split at h
     all_goals cases h
     all_goals rfl)

set_option maxRecDepth 4000 in
/-- Byte fetch inside the repeated `01 00` block: even offsets read `0x01`,
odd offsets read `0x00`. -/
theorem rep_get (t : List Nat) : ∀ (n k : Nat), k < n →
    ((List.replicate n ([0x01, 0x00] : List Nat)).flatten ++ t).get? (2 * k) = some 0x01 ∧
    ((List.replicate n ([0x01, 0x00] : List Nat)).flatten ++ t).get? (2 * k + 1) = some 0x00 := by
  intro n
  induction n with
  | zero => intro k hk; omega
  | succ n ih =>
    intro k hk
    cases k with
    | zero =>
      constructor <;>
        simp [List.replicate_succ, List.flatten_cons]
    | succ k =>
      have h2 : 2 * (k + 1) = 2 * k + 1 + 1 := by ring
      have h3 := ih k (by omega)
      constructor
      · simpa [List.replicate_succ, List.flatten_cons, h2, List.get?_eq_getElem?]
          using h3.1
      · simpa [List.replicate_succ, List.flatten_cons, h2, List.get?_eq_getElem?]
          using h3.2

/-- Byte fetch in the scenario-F program. -/
theorem overflowProg_get (k : Nat) (hk : k < 1025) :
    overflowProg.get? (2 * k) = some 0x01 ∧ overflowProg.get? (2 * k + 1) = some 0x00 :=
  rep_get [0xFF] 1025 k hk

set_option maxRecDepth 4000 in
/-- The scenario-F program has `1025 * 2 + 1` bytes. -/
theorem overflowProg_length : overflowProg.length = 2051 := by
  rw [overflowProg, List.length_append, List.length_flatten, List.map_replicate]
  rw [List.sum_replicate, smul_eq_mul]
  norm_num

/-- The fresh context of `VM::new` is the zero-iteration push state. -/
theorem pushCtx_zero : ExecutionContext.new 1000000 = pushCtx 0 := rfl

set_option maxRecDepth 8000 in
/-- One `PUSH 0` iteration of the scenario-F program advances `pushCtx k`
to `pushCtx (k + 1)` while fewer than 1024 values are on the stack. -/
theorem step_push (k : Nat) (hk : k < 1024) :
    step zeroHash overflowProg 0x01 (pushCtx k) = .next (pushCtx (k + 1)) := by
  have hv : overflowProg.get? (2 * k + 1) = some 0x00 := (overflowProg_get k (by omega)).2
  unfold step
  rw [show gasCostOf 0x01 (pushCtx k) = 3 from rfl]
  rw [show (pushCtx k).gas_remaining = 1000000 - 3 * k from rfl]
  rw [if_neg (by omega)]
  rw [stepOp_push zeroHash overflowProg _ 0 hv
      (by simp [pushCtx, List.length_replicate]; omega)]
  refine congrArg StepResult.next ?_
  unfold pushCtx
  simp only [List.replicate_succ]
  congr 1

/-- Running the loop from `pushCtx k` reaches `pushCtx 1024` after the
remaining `1024 - k` push iterations. -/
theorem pushLoop : ∀ (d k fuel : Nat), k + d = 1024 →
    execLoop zeroHash overflowProg (fuel + d + 1) (pushCtx k) =
    execLoop zeroHash overflowProg (fuel + 1) (pushCtx 1024) := by
  intro d
  induction d with
  | zero =>
    intro k fuel hk
    have hk0 : k = 1024 := by omega
    subst hk0
    rfl
  | succ d ih =>
    intro k fuel hk
    have hk1 : k < 1024 := by omega
    have hfetch : overflowProg.get? ((pushCtx k).program_counter) = some 0x01 :=
      (overflowProg_get k (by omega)).1
    have hfuel : fuel + (d + 1) + 1 = (fuel + d + 1) + 1 := by ring
    rw [hfuel]
    rw [execLoop]
    rw [hfetch]
    dsimp only
    rw [step_push k hk1]
    exact ih (k + 1) fuel (by omega)

set_option maxRecDepth 8000 in
/-- The 1025th `PUSH` finds 1024 stack entries and raises `StackOverflow`
(gas for the push already debited). -/
theorem overflow_step :
    step zeroHash overflowProg 0x01 (pushCtx 1024) =
    .err .StackOverflow { pushCtx 1024 with gas_remaining := 1000000 - 3 * 1024 - 3 } := by
  have hv : overflowProg.get? (2 * 1024 + 1) = some 0x00 :=
    (overflowProg_get 1024 (by omega)).2
  unfold step
  rw [show gasCostOf 0x01 (pushCtx 1024) = 3 from rfl]
  rw [show (pushCtx 1024).gas_remaining = 1000000 - 3 * 1024 from rfl]
  rw [if_neg (by omega)]
  have hlen : 1024 ≤ ({ pushCtx 1024 with
      gas_remaining := 1000000 - 3 * 1024 - 3 } : ExecutionContext).stack.length := by
    simp only [pushCtx, List.length_replicate]
    exact Nat.le_refl 1024
  have happ := stepOp_push_full zeroHash overflowProg
    ({ pushCtx 1024 with gas_remaining := 1000000 - 3 * 1024 - 3 }) 0 hv hlen
  rw [happ]

/-- The loop at `pushCtx 1024` stops with `StackOverflow`. -/
theorem overflow_final (fuel : Nat) :
    execLoop zeroHash overflowProg (fuel + 1) (pushCtx 1024) =
    .err .StackOverflow { pushCtx 1024 with gas_remaining := 1000000 - 3 * 1024 - 3 } := by
  have hfetch : overflowProg.get? ((pushCtx 1024).program_counter) = some 0x01 :=
    (overflowProg_get 1024 (by omega)).1
  rw [execLoop]
  rw [hfetch]
  dsimp only
  rw [overflow_step]

/-- Executing the scenario-F program raises `StackOverflow`. -/
theorem overflow_result : (execute zeroHash overflowProg).error = some .StackOverflow := by
  unfold execute
  rw [overflowProg_length]
  rw [pushCtx_zero]
  rw [show (2051 + 1 : Nat) = 1027 + 1024 + 1 from rfl]
  rw [pushLoop 1024 0 1027 (by omega)]
  rw [overflow_final 1027]
  rfl

/-- Lexicographic byte order is total. -/
theorem keyLe_total : ∀ (a b : List Nat), (keyLe a b || keyLe b a) = true := by
  intro a
  induction a with
  | nil => intro b; simp [keyLe]
  | cons x xs ih =>
    intro b
    cases b with
    | nil => simp [keyLe]
    | cons y ys =>
      by_cases h1 : x < y
      · simp [keyLe, h1]
      · by_cases h2 : y < x
        · simp [keyLe, h1, h2]
        · have hxy : x = y := by omega
          subst hxy
          simpa [keyLe, h1, h2] using ih ys

/-- Lexicographic byte order is transitive. -/
theorem keyLe_trans : ∀ (a b c : List Nat),
    keyLe a b = true → keyLe b c = true → keyLe a c = true := by
  intro a
  induction a with
  | nil => intro b c _ _; simp [keyLe]
  | cons x xs ih =>
    intro b c hab hbc
    cases b with
    | nil => simp [keyLe] at hab
    | cons y ys =>
      cases c with
      | nil => simp [keyLe] at hbc
      | cons z zs =>
        simp only [keyLe] at hab hbc ⊢
        by_cases h1 : x < y <;> by_cases h2 : y < x <;>
          by_cases h3 : y < z <;> by_cases h4 : z < y <;>
          by_cases h5 : x < z <;> by_cases h6 : z < x <;>
          simp_all <;>
          try omega
        have hxy : x = y := by omega
        have hyz : y = z := by omega
        subst hxy hyz
        exact Or.inr (ih ys zs hab hbc)

/-- Lexicographic byte order is antisymmetric. -/
theorem keyLe_antisymm : ∀ (a b : List Nat),
    keyLe a b = true → keyLe b a = true → a = b := by
  intro a
  induction a with
  | nil =>
    intro b _ hba
    cases b with
    | nil => rfl
    | cons y ys => simp [keyLe] at hba
  | cons x xs ih =>
    intro b hab hba
    cases b with
    | nil => simp [keyLe] at hab
    | cons y ys =>
      by_cases h1 : x < y
      · exfalso
        simp [keyLe, h1, show ¬ y < x by omega] at hba
      · by_cases h2 : y < x
        · exfalso
          simp [keyLe, h1, h2] at hab
        · have hxy : x = y := by omega
          subst hxy
          rw [ih ys (by simpa [keyLe, h1] using hab) (by simpa [keyLe, h1] using hba)]

/-- Sort-by-key comparison is transitive. -/
theorem pairLe_trans : ∀ (x y z : List Nat × Value),
    pairLe x y = true → pairLe y z = true → pairLe x z = true :=
  fun x y z => keyLe_trans x.1 y.1 z.1

/-- Sort-by-key comparison is total. -/
theorem pairLe_total : ∀ (x y : List Nat × Value), (pairLe x y || pairLe y x) = true :=
  fun x y => keyLe_total x.1 y.1

/-- Two sorted-by-key permutations of each other with pairwise distinct keys
are equal as lists. -/
theorem perm_pairwise_nodupkeys_eq :
    ∀ (l1 l2 : List (List Nat × Value)), l1.Perm l2 →
      l1.Pairwise (fun x y => pairLe x y = true) →
      l2.Pairwise (fun x y => pairLe x y = true) →
      (l1.map Prod.fst).Nodup → l1 = l2 := by
  intro l1
  induction l1 with
  | nil =>
    intro l2 hp _ _ _
    exact hp.nil_eq
  | cons a t1 ih =>
    intro l2 hp hs1 hs2 hnd
    cases l2 with
    | nil =>
      have := hp.length_eq
      simp at this
    | cons b t2 =>
      have hab : a = b := by
        by_contra hne
        have hamem : a ∈ b :: t2 := hp.mem_iff.mp (List.mem_cons_self a t1)
        have hbmem : b ∈ a :: t1 := hp.symm.mem_iff.mp (List.mem_cons_self b t2)
        have hat2 : a ∈ t2 := by
          rcases List.mem_cons.mp hamem with h | h
          · exact absurd h hne
          · exact h
        have hbt1 : b ∈ t1 := by
          rcases List.mem_cons.mp hbmem with h | h
          · exact absurd h.symm hne
          · exact h
        have h1 : pairLe a b = true := (List.pairwise_cons.mp hs1).1 b hbt1
        have h2 : pairLe b a = true := (List.pairwise_cons.mp hs2).1 a hat2
        have hk : a.1 = b.1 := keyLe_antisymm a.1 b.1 h1 h2
        have hmem : a.1 ∈ t1.map Prod.fst := by
          rw [hk]
          exact List.mem_map_of_mem Prod.fst hbt1
        exact (List.nodup_cons.mp hnd).1 hmem
      subst hab
      have ht : t1.Perm t2 := hp.cons_inv
      rw [ih t2 ht (List.pairwise_cons.mp hs1).2 (List.pairwise_cons.mp hs2).2
        (List.nodup_cons.mp hnd).2]

/-- Sorting by key maps permutations with distinct keys to the same list. -/
theorem mergeSort_eq_of_perm (s1 s2 : List (List Nat × Value)) (hp : s1.Perm s2)
    (hnd : (s1.map Prod.fst).Nodup) :
    s1.mergeSort pairLe = s2.mergeSort pairLe := by
  apply perm_pairwise_nodupkeys_eq
  · exact (s1.mergeSort_perm pairLe).trans (hp.trans (s2.mergeSort_perm pairLe).symm)
  · exact List.sorted_mergeSort pairLe_trans pairLe_total s1
  · exact List.sorted_mergeSort pairLe_trans pairLe_total s2
  · exact ((s1.mergeSort_perm pairLe).map Prod.fst).nodup_iff.mpr hnd

/-- On a cache hit with an equal proof both paths return `true`; on a miss with
a correct binding hash the batch path equals the full verification. -/
theorem batchOne_eq_verify {P I : Type} [DecidableEq P] (cache : List Nat → Option P)
    (snark : P → List I → Bool) (hashProof : P → List I → List Nat) (pd : ProofData P I)
    (h1 : hashProof pd.proof pd.public_inputs = pd.hash)
    (h2 : cache pd.hash = none ∨ cache pd.hash = some pd.proof) :
    batchOne cache snark pd = verify cache snark hashProof pd := by
  unfold batchOne verify verifyFull
  rcases h2 with h2 | h2 <;> rw [h2] <;> simp [h1]

/-! ## Claim theorems -/

/-- Claim C1 (code bug): the constraint the circuit emits for an ADD step is
the multiplicative row `a * b = r`, not the linear `a + b - r = 0` the claim
states; at `a = 2, b = 3` the circuit is unsatisfied by its own assigned
witness `r = a + b = 5` (since `2 * 3 ≠ 5`) and satisfied by `r = 6 ≠ a + b`. -/
theorem C1_add_gadget_multiplicative :
    (¬ addStepConstraint (2 : ZMod 101) 3 (addResultWitness 2 3)) ∧
    addStepConstraint (2 : ZMod 101) 3 6 := by
  constructor
  · intro h
    have h2 : (2 * 3 : ZMod 101) = 2 + 3 := h
    revert h2
    decide
  · show (2 * 3 : ZMod 101) = 6
    decide

/-- Claim C2 counterexample: 0x08 (EQ) is in the section-4.1 opcode table and
in the gas table, and the interpreter is given two Int operands, yet `execute`
returns `InvalidOpcode 8` because no dispatch arm exists. -/
theorem C2_counterexample_eq_is_invalid :
    (execute zeroHash progEq).error = some (.InvalidOpcode 0x08) := rfl

/-- Claim C2 (amended): `step` returns `InvalidOpcode op` exactly for opcodes
outside the dispatch set `handledOps` (which excludes 0x06-0x0A JUMP, JUMPI,
EQ, LT, GT despite their gas-table entries), debiting the opcode's gas first;
for dispatched opcodes no `InvalidOpcode` error is ever produced. -/
theorem C2_amended_invalid_opcode :
    (∀ (hash : List Nat → List Nat) (prog : List Nat) (op : Nat) (ctx : ExecutionContext),
      op ∉ handledOps → gasCostOf op ctx ≤ ctx.gas_remaining →
      step hash prog op ctx = .err (.InvalidOpcode op)
        { ctx with gas_remaining := ctx.gas_remaining - gasCostOf op ctx }) ∧
    (∀ (hash : List Nat → List Nat) (prog : List Nat) (op : Nat) (ctx : ExecutionContext),
      op ∈ handledOps → (step hash prog op ctx).isInvalidOpcode = false) := by
  constructor
  · intro hash prog op ctx hmem hgas
    have h1 : op ≠ 0x01 := fun h => hmem (by rw [h]; decide)
    have h2 : op ≠ 0x02 := fun h => hmem (by rw [h]; decide)
    have h3 : op ≠ 0x03 := fun h => hmem (by rw [h]; decide)
    have h4 : op ≠ 0x04 := fun h => hmem (by rw [h]; decide)
    have h5 : op ≠ 0x05 := fun h => hmem (by rw [h]; decide)
    have h6 : op ≠ 0x0B := fun h => hmem (by rw [h]; decide)
    have h7 : op ≠ 0x0C := fun h => hmem (by rw [h]; decide)
    have h8 : op ≠ 0x0D := fun h => hmem (by rw [h]; decide)
    have h9 : op ≠ 0x0E := fun h => hmem (by rw [h]; decide)
    have h10 : op ≠ 0x0F := fun h => hmem (by rw [h]; decide)
    have h11 : op ≠ 0xFF := fun h => hmem (by rw [h]; decide)
    unfold gasCostOf at hgas
    unfold step stepOp
    rw [if_neg (by unfold gasCostOf; omega)]
    rw [if_neg h1, if_neg h2, if_neg h3, if_neg h4, if_neg h5, if_neg h6, if_neg h7,
        if_neg h8, if_neg h9, if_neg h10, if_neg h11]
  · intro hash prog op ctx hmem
    simp only [handledOps, List.mem_cons, List.not_mem_nil, or_false] at hmem
    rcases hmem with rfl|rfl|rfl|rfl|rfl|rfl|rfl|rfl|rfl|rfl|rfl <;>
      (unfold step
       split
       · rfl
       · unfold stepOp
         norm_num
         repeat' split
         all_goals rfl)

/-- Concrete instance of C2_amended_invalid_opcode: JUMP (0x06) on a fresh
context yields `InvalidOpcode 6` with its table gas of 8 debited, while ADD
(0x02) never reports `InvalidOpcode`. -/
theorem C2_witness :
    step zeroHash [] 0x06 (ExecutionContext.new 1000000) = .err (.InvalidOpcode 0x06)
      { ExecutionContext.new 1000000 with gas_remaining := 999992 } ∧
    (step zeroHash [] 0x02 (ExecutionContext.new 1000000)).isInvalidOpcode = false := by
  constructor
  · exact C2_amended_invalid_opcode.1 zeroHash [] 0x06 (ExecutionContext.new 1000000)
      (by decide) (by decide)
  · exact C2_amended_invalid_opcode.2 zeroHash [] 0x02 (ExecutionContext.new 1000000)
      (by decide)

/-- Claim C3 counterexample: scenario A consumes 13 gas, not 11 — the STOP
byte 0xFF has no entry in the gas table, so the base cost 2 is debited for it
before the loop breaks. -/
theorem C3_counterexample_gas_13 :
    (execute zeroHash progA).gasLeft = some 999987 ∧ (999987 : Nat) ≠ 1000000 - 11 :=
  ⟨rfl, by decide⟩

/-- Claim C3 (amended): scenario A `01 05 01 03 02 FF` succeeds with Int 8 on
top of the stack and consumes exactly 13 gas: 3 + 3 for the PUSHes, 5 for ADD,
and the base cost 2 for STOP. -/
theorem C3_amended_scenarioA : execute zeroHash progA =
    .ok { stack := [.int 8], memory := [], storage := [], program_counter := 5,
          gas_remaining := 999987, gas_config := GasConfig.default,
          call_stack := [], logs := [] } := rfl

/-- Claim C4 (code bug): scenario C `01 2A 04 00 01 37 ...` fails with
`StackUnderflow` at the first STORE: STORE pops its address from the stack
(taking the just-pushed 42) and then finds no value underneath — the inline
`00` byte after `04` is never treated as an operand.  Gas for PUSH (3) and
STORE (20) is debited. -/
theorem C4_scenarioC_underflows : execute zeroHash progC =
    .err .StackUnderflow
      { stack := [], memory := [], storage := [], program_counter := 2,
        gas_remaining := 999977, gas_config := GasConfig.default,
        call_stack := [], logs := [] } := rfl

/-- Claim C5 counterexample: scenario D `02 FF` returns `StackUnderflow` but
the context is NOT unchanged: ADD's 5 gas was debited before the empty-stack
check, leaving 999995 of the initial 1000000. -/
theorem C5_counterexample_gas_debited :
    (execute zeroHash progD).error = some .StackUnderflow ∧
    (execute zeroHash progD).gasLeft = some 999995 ∧ (999995 : Nat) ≠ 1000000 :=
  ⟨rfl, rfl, by decide⟩

/-- Claim C5 (amended): on error the context keeps every mutation made before
the failure: a `StackUnderflow` context always carries the failing opcode's
gas debit (and its completed pops); concretely `02 FF` yields `StackUnderflow`
with gas 999995 and every other field as in the fresh context. -/
theorem C5_amended_error_context :
    (∀ (hash : List Nat → List Nat) (prog : List Nat) (op : Nat)
        (ctx c : ExecutionContext),
      step hash prog op ctx = .err .StackUnderflow c →
      c.gas_remaining = ctx.gas_remaining - gasCostOf op ctx) ∧
    execute zeroHash progD =
      .err .StackUnderflow { ExecutionContext.new 1000000 with gas_remaining := 999995 } := by
  constructor
  · intro hash prog op ctx c h
    unfold step at h
    by_cases hgas : ctx.gas_remaining < gasCostOf op ctx
    · rw [if_pos hgas] at h
      cases h
    · rw [if_neg hgas] at h
      exact stepOp_underflow_gas hash prog op _ c h
  · rfl

/-- Concrete instance of C5_amended_error_context: the underflow context of
`02 FF` holds exactly the initial gas minus ADD's cost. -/
theorem C5_witness :
    ({ ExecutionContext.new 1000000 with gas_remaining := 999995 } :
        ExecutionContext).gas_remaining =
      (ExecutionContext.new 1000000).gas_remaining -
        gasCostOf 0x02 (ExecutionContext.new 1000000) :=
  C5_amended_error_context.1 zeroHash progD 0x02 (ExecutionContext.new 1000000)
    { ExecutionContext.new 1000000 with gas_remaining := 999995 } rfl

/-- Claim C6 counterexample: a proof-data record whose stored hash `[1]`
differs from the recomputed binding digest `[0]` and is not cached; the SNARK
check accepts, so `batch_verify` (which skips the binding-hash check on a
cache miss) returns `true` while the conjunction of `verify` results is
`false`. -/
theorem C6_counterexample_batch_skips_hash :
    batchVerify cexCache cexSnark [cexPd] = true ∧
    [cexPd].all (verify cexCache cexSnark cexHash) = false := ⟨rfl, rfl⟩

/-- Claim C6 (amended): `batch_verify` equals the conjunction of the
individual `verify` results provided every proof's stored hash equals the
recomputed binding digest and every cache entry under a proof's hash, if
present, holds that same proof. -/
theorem C6_amended_batch_eq_all_verify {P I : Type} [DecidableEq P]
    (cache : List Nat → Option P) (snark : P → List I → Bool)
    (hashProof : P → List I → List Nat) (pds : List (ProofData P I))
    (hhash : ∀ pd ∈ pds, hashProof pd.proof pd.public_inputs = pd.hash)
    (hcache : ∀ pd ∈ pds, cache pd.hash = none ∨ cache pd.hash = some pd.proof) :
    batchVerify cache snark pds = pds.all (verify cache snark hashProof) := by
  induction pds with
  | nil => rfl
  | cons pd rest ih =>
    have heq := batchOne_eq_verify cache snark hashProof pd
      (hhash pd (List.mem_cons_self pd rest)) (hcache pd (List.mem_cons_self pd rest))
    have ih2 := ih (fun q hq => hhash q (List.mem_cons_of_mem pd hq))
      (fun q hq => hcache q (List.mem_cons_of_mem pd hq))
    simp only [batchVerify, List.map_cons, List.all_cons, heq, id] at *
    rw [ih2]

/-- Concrete instance of C6_amended_batch_eq_all_verify: with a correct
binding hash and an empty cache the two sides agree. -/
theorem C6_witness :
    batchVerify cexCache cexSnark [({ proof := 0, public_inputs := [], hash := [0] } :
        ProofData Nat Nat)] =
      [({ proof := 0, public_inputs := [], hash := [0] } : ProofData Nat Nat)].all
        (verify cexCache cexSnark cexHash) :=
  C6_amended_batch_eq_all_verify cexCache cexSnark cexHash
    [{ proof := 0, public_inputs := [], hash := [0] }]
    (fun pd hpd => by rw [List.mem_singleton.mp hpd]; rfl)
    (fun pd hpd => Or.inl rfl)

/-- Claim C7: (i) every step that continues or halts keeps the stack length
within 1024; (ii) a PUSH finding 1024 entries raises `StackOverflow` (with the
push's gas debited); (iii) 1025 repetitions of `01 00` followed by `FF` end in
`StackOverflow`. -/
theorem C7_stack_bound :
    (∀ (hash : List Nat → List Nat) (prog : List Nat) (op : Nat)
        (ctx c : ExecutionContext),
      step hash prog op ctx = .next c ∨ step hash prog op ctx = .halt c →
      ctx.stack.length ≤ 1024 → c.stack.length ≤ 1024) ∧
    (∀ (hash : List Nat → List Nat) (prog : List Nat) (ctx : ExecutionContext) (v : Nat),
      prog.get? (ctx.program_counter + 1) = some v →
      gasCostOf 0x01 ctx ≤ ctx.gas_remaining →
      1024 ≤ ctx.stack.length →
      step hash prog 0x01 ctx = .err .StackOverflow
        { ctx with gas_remaining := ctx.gas_remaining - gasCostOf 0x01 ctx }) ∧
    (execute zeroHash overflowProg).error = some .StackOverflow := by
  refine ⟨step_stack_le, ?_, overflow_result⟩
  intro hash prog ctx v hv hgas hlen
  unfold step
  rw [if_neg (by omega)]
  exact stepOp_push_full hash prog
    { ctx with gas_remaining := ctx.gas_remaining - gasCostOf 0x01 ctx } v hv hlen

/-- Concrete instance of C7_stack_bound: a PUSH step from the fresh context
keeps the stack bound, and a PUSH onto a 1024-deep stack overflows. -/
theorem C7_witness :
    ({ ExecutionContext.new 1000000 with
        stack := [Value.int 5]
        gas_remaining := 999997
        program_counter := 2 } :
      ExecutionContext).stack.length ≤ 1024 ∧
    step zeroHash [0x01, 0x05, 0xFF] 0x01
        { ExecutionContext.new 1000000 with stack := List.replicate 1024 (Value.int 0) } =
      .err .StackOverflow
        { ExecutionContext.new 1000000 with
          stack := List.replicate 1024 (Value.int 0)
          gas_remaining := 999997 } := by
  constructor
  · exact C7_stack_bound.1 zeroHash [0x01, 0x05, 0xFF] 0x01 (ExecutionContext.new 1000000)
      { ExecutionContext.new 1000000 with
        stack := [Value.int 5]
        gas_remaining := 999997
        program_counter := 2 }
      (Or.inl rfl) (by decide)
  · exact C7_stack_bound.2.1 zeroHash [0x01, 0x05, 0xFF]
      { ExecutionContext.new 1000000 with stack := List.replicate 1024 (Value.int 0) }
      0x05 rfl (by decide)
      (by rw [show ({ ExecutionContext.new 1000000 with
            stack := List.replicate 1024 (Value.int 0) } : ExecutionContext).stack =
          List.replicate 1024 (Value.int 0) from rfl, List.length_replicate])

/-- Claim C8: the state root is a function of the storage mapping (sorted by
key) and the ordered logs only — any two insertion orders of the same storage
pairs (distinct keys) give the same root, for every choice of byte hash. -/
theorem C8_state_root_order_invariant (hashF : List Nat → List Nat) (logs : List Log)
    (s1 s2 : List (List Nat × Value)) (hp : s1.Perm s2)
    (hnd : (s1.map Prod.fst).Nodup) :
    computeStateRoot hashF s1 logs = computeStateRoot hashF s2 logs := by
  unfold computeStateRoot stateRootInput
  rw [mergeSort_eq_of_perm s1 s2 hp hnd]

/-- Concrete instance of C8_state_root_order_invariant: the two insertion
orders of keys `[0]` and `[1]` hash identically. -/
theorem C8_witness :
    ([([0], Value.int 5), ([1], Value.int 7)] : List (List Nat × Value)).Perm
      [([1], Value.int 7), ([0], Value.int 5)] ∧
    (([([0], Value.int 5), ([1], Value.int 7)] :
      List (List Nat × Value)).map Prod.fst).Nodup ∧
    computeStateRoot zeroHash [([0], Value.int 5), ([1], Value.int 7)] [] =
      computeStateRoot zeroHash [([1], Value.int 7), ([0], Value.int 5)] [] := by
  refine ⟨List.Perm.swap ([1], Value.int 7) ([0], Value.int 5) [], by simp, ?_⟩
  exact C8_state_root_order_invariant zeroHash [] _ _
    (List.Perm.swap ([1], Value.int 7) ([0], Value.int 5) [])
    (by simp)

/-- Claim C9: `execute` is partial at the public interface — a PUSH opcode as
the last program byte reads `program[pc + 1]` past the end (modelled `panic`,
not a `VMError`), and a CREATE whose inline `code_size` window extends past
the end slices out of bounds likewise. -/
theorem C9_push_create_panic :
    execute zeroHash progPushEnd = .panic ∧ execute zeroHash progCreateEnd = .panic :=
  ⟨rfl, rfl⟩

/-- Claim C10: popping a wrong-variant value is reported as `StackUnderflow`
even on a non-empty stack — ADD and MUL on a non-Int top, and CALL and BALANCE
on a non-Address top, all return `StackUnderflow` (with the value popped and
gas debited) — and the `VMError` type has no distinct type-error variant. -/
theorem C10_wrong_variant_underflow :
    (∀ (hash : List Nat → List Nat) (prog : List Nat) (ctx : ExecutionContext)
       (v : Value) (s : List Value),
      ctx.gas_config = GasConfig.default → ctx.stack = v :: s →
      ((Value.isInt v = false → 5 ≤ ctx.gas_remaining →
          step hash prog 0x02 ctx = .err .StackUnderflow
            { ctx with gas_remaining := ctx.gas_remaining - 5, stack := s } ∧
          step hash prog 0x03 ctx = .err .StackUnderflow
            { ctx with gas_remaining := ctx.gas_remaining - 5, stack := s }) ∧
       (Value.isAddress v = false →
         (40 ≤ ctx.gas_remaining →
           step hash prog 0x0C ctx = .err .StackUnderflow
             { ctx with gas_remaining := ctx.gas_remaining - 40, stack := s }) ∧
         (20 ≤ ctx.gas_remaining →
           step hash prog 0x0F ctx = .err .StackUnderflow
             { ctx with gas_remaining := ctx.gas_remaining - 20, stack := s })))) ∧
    (∀ e : VMError, e = .StackUnderflow ∨ e = .StackOverflow ∨
      (∃ k, e = .InvalidOpcode k) ∨ (∃ m, e = .MemoryError m) ∨
      (∃ m, e = .ExecutionError m) ∨ e = .GasLimitExceeded ∨
      e = .InvalidJumpDestination ∨ (∃ m, e = .ContractCreationError m) ∨
      (∃ m, e = .InvalidStateTransition m)) := by
  constructor
  · intro hash prog ctx v s hcfg hst
    refine ⟨fun hv hgas => ⟨?_, ?_⟩, fun hv => ⟨fun hgas => ?_, fun hgas => ?_⟩⟩ <;>
      (unfold step stepOp gasCostOf
       rw [hcfg]
       simp only [GasConfig.default, opCostDefault]
       norm_num
       rw [if_neg (by omega)]
       simp only [hst]
       cases v <;> simp_all [Value.isInt, Value.isAddress])
  · intro e
    cases e <;> simp

/-- Concrete instance of C10_wrong_variant_underflow: ADD with a Bool on top
of the stack underflows with the Bool popped and 5 gas debited. -/
theorem C10_witness :
    step zeroHash [] 0x02
        { ExecutionContext.new 1000000 with stack := [Value.bool true] } =
      .err .StackUnderflow { ExecutionContext.new 1000000 with gas_remaining := 999995 } :=
  ((C10_wrong_variant_underflow.1 zeroHash []
      { ExecutionContext.new 1000000 with stack := [Value.bool true] }
      (Value.bool true) [] rfl rfl).1 rfl (by decide)).1

end ZkVM
